import Mathlib

/-!
A verification development for the oil-well PDF extraction core
(`pdf_parse.py`): a shallow embedding of the text-to-record extraction
logic (`parse_well_info`, `parse_stimulation_data`, the date
normalization, and the per-document forwarding decision of `main`).

Python strings are modelled as `List Char`; `None`-able dictionary
values as `Option String`.  The regular expressions of the source are
transcribed into an explicit regex AST (`RE`) and run by a
priority-ordered backtracking matcher (`mres`) whose first result
coincides with CPython `re` semantics (leftmost start, left-biased
alternation, greedy quantifiers longest-first, lazy quantifiers
shortest-first).  Character classes `\d` and `\w` are modelled over
ASCII, which covers the documents this parser targets.
-/

namespace PdfParse

/-- Whitespace per Python `str.isspace` (also the `\s` class of `re`
for text patterns). -/
def pyIsSpace (c : Char) : Bool :=
  [' ', '\t', '\n', '\r', '\x0b', '\x0c', '\x1c', '\x1d', '\x1e', '\x1f',
   '\x85', '\xa0', ' ', ' ', ' ', ' ', ' ',
   ' ', ' ', ' ', ' ', ' ', ' ', ' ',
   ' ', ' ', ' ', ' ', '　'].contains c

/-- Line boundaries recognized by Python `str.splitlines`. -/
def isLineBreak (c : Char) : Bool :=
  ['\n', '\r', '\x0b', '\x0c', '\x1c', '\x1d', '\x1e',
   '\x85', ' ', ' '].contains c

/-- Python `str.strip()`. -/
def pyStrip (l : List Char) : List Char :=
  ((l.dropWhile pyIsSpace).reverse.dropWhile pyIsSpace).reverse

/-- Collapse each `"\r\n"` pair into a single `'\n'` boundary
(the pair counts as one line break in `str.splitlines`). -/
def normNewlines : List Char → List Char
  | [] => []
  | [c] => [c]
  | c :: d :: cs =>
    if c = '\r' ∧ d = '\n' then '\n' :: normNewlines cs
    else c :: normNewlines (d :: cs)

/-- Split at the remaining single-character line boundaries; no
trailing empty line. -/
def splitlinesAux : List Char → List (List Char)
  | [] => []
  | c :: cs =>
    if isLineBreak c then [] :: splitlinesAux cs
    else
      match splitlinesAux cs with
      | [] => [[c]]
      | l :: ls => (c :: l) :: ls

/-- Python `str.splitlines()`. -/
def splitlines (l : List Char) : List (List Char) :=
  splitlinesAux (normNewlines l)

/-- Case-insensitive "is a prefix of" (both sides lowercased, as with
`re.IGNORECASE` literal matching). -/
def prefixCI : List Char → List Char → Bool
  | [], _ => true
  | _ :: _, [] => false
  | a :: as, b :: bs => (a.toLower == b.toLower) && prefixCI as bs

/-- Case-insensitive substring containment. -/
def containsCI (pat : List Char) : List Char → Bool
  | [] => prefixCI pat []
  | c :: cs => prefixCI pat (c :: cs) || containsCI pat cs

/-- Case-sensitive substring containment (Python `pat in s`). -/
def containsSub (pat : List Char) : List Char → Bool
  | [] => pat.isEmpty
  | c :: cs => pat.isPrefixOf (c :: cs) || containsSub pat cs

/-! ## A small backtracking regex engine

The matcher returns the full list of alternatives in backtracking
priority order; `re.match` corresponds to its head.  Quantifiers use a
local iteration budget of `input length + 1`, which never truncates for
star bodies that consume at least one character (all quantifier bodies
appearing in the source's patterns are single character classes). -/

/-- Regex AST covering the constructs used by `pdf_parse.py`. -/
inductive RE where
  | eps : RE
  | cls : (Char → Bool) → RE
  | lit : List Char → RE
  | litCI : List Char → RE
  | seq : RE → RE → RE
  | alt : RE → RE → RE
  | starG : RE → RE
  | starL : RE → RE
  | group : Nat → RE → RE

/-- Capture environment: group index to captured text. -/
def Caps := Nat → Option (List Char)

def cap0 : Caps := fun _ => none

def capSet (cp : Caps) (i : Nat) (v : List Char) : Caps :=
  fun j => if j = i then some v else cp j

/-- Greedy star: longest iteration counts first. -/
def starIterG (step : List Char → Caps → List (Caps × List Char)) :
    Nat → List Char → Caps → List (Caps × List Char)
  | 0, s, cp => [(cp, s)]
  | f + 1, s, cp =>
    ((step s cp).flatMap (fun r => starIterG step f r.2 r.1)) ++ [(cp, s)]

/-- Lazy star: shortest iteration counts first. -/
def starIterL (step : List Char → Caps → List (Caps × List Char)) :
    Nat → List Char → Caps → List (Caps × List Char)
  | 0, s, cp => [(cp, s)]
  | f + 1, s, cp =>
    (cp, s) :: (step s cp).flatMap (fun r => starIterL step f r.2 r.1)

/-- All ways a regex can match a prefix of `s`, in backtracking
priority order; each result carries the capture environment and the
unconsumed suffix. -/
def mres : RE → List Char → Caps → List (Caps × List Char)
  | .eps, s, cp => [(cp, s)]
  | .cls _, [], _ => []
  | .cls p, c :: t, cp => if p c then [(cp, t)] else []
  | .lit l, s, cp =>
    if l.isPrefixOf s then [(cp, s.drop l.length)] else []
  | .litCI l, s, cp =>
    if prefixCI l s then [(cp, s.drop l.length)] else []
  | .seq a b, s, cp => (mres a s cp).flatMap (fun r => mres b r.2 r.1)
  | .alt a b, s, cp => mres a s cp ++ mres b s cp
  | .starG a, s, cp =>
    starIterG (fun s' cp' => mres a s' cp') (s.length + 1) s cp
  | .starL a, s, cp =>
    starIterL (fun s' cp' => mres a s' cp') (s.length + 1) s cp
  | .group i a, s, cp =>
    (mres a s cp).map
      (fun r => (capSet r.1 i (s.take (s.length - r.2.length)), r.2))

/-- The successive suffixes of `s` (longest first), each paired with
`cp`: the result list of a lazy star over an everywhere-matching
single-character class. -/
def sufList (cp : Caps) : List Char → List (Caps × List Char)
  | [] => [(cp, [])]
  | c :: cs => (cp, c :: cs) :: sufList cp cs

/-- Python `re.match` at the start of `s`: the highest-priority match. -/
def tryMatch (r : RE) (s : List Char) : Option (Caps × List Char) :=
  (mres r s cap0).head?

/-- Python `re.search`: the match at the leftmost feasible position. -/
def reSearch (r : RE) : List Char → Option Caps
  | [] => (tryMatch r []).map Prod.fst
  | c :: cs =>
    match tryMatch r (c :: cs) with
    | some pr => some pr.1
    | none => reSearch r cs

/-- Right-nested sequencing of a pattern list. -/
def reseq (rs : List RE) : RE := rs.foldr RE.seq RE.eps

def spC : RE := RE.cls pyIsSpace
def sStar : RE := RE.starG spC
def sPlus : RE := RE.seq spC (RE.starG spC)
def dgC : RE := RE.cls Char.isDigit
def dPlus : RE := RE.seq dgC (RE.starG dgC)
/-- The `.` / `[^\n]` class (no DOTALL in the field patterns). -/
def nNL : RE := RE.cls (fun c => !(c == '\n'))
def wC : RE := RE.cls (fun c => c.isAlphanum || c == '_')
def wPlus : RE := RE.seq wC (RE.starG wC)
def ddC : RE := RE.cls (fun c => c.isDigit || c == '.')
def apiC : RE := RE.cls (fun c => c.isDigit || c == '-')

/-! ## Date normalization

`datetime.strptime(raw_date, "%m/%d/%Y")` followed by
`strftime("%Y-%m-%d")`, wrapped in try/except by the source.  CPython's
`_strptime` compiles `%m` to `1[0-2]|0[1-9]|[1-9]`, `%d` to
`3[01]|[12]\d|0[1-9]|[1-9]` and `%Y` to exactly four digits, requires
the whole token to be consumed, and then `datetime(year, month, day)`
validates the calendar date (`1 <= year`, day within the month).  The
alternations below are deterministic here because a successful
two-digit branch leaves a non-digit follow set, so no backtracking into
the one-digit branch can ever succeed where the two-digit one fails. -/

def digitVal (c : Char) : Nat := c.toNat - 48

/-- `%m`: `1[0-2]|0[1-9]|[1-9]`, in alternation order. -/
def parseMonth : List Char → Option (Nat × List Char)
  | '1' :: c :: rest =>
    if c = '0' ∨ c = '1' ∨ c = '2' then some (10 + digitVal c, rest)
    else some (1, c :: rest)
  | '0' :: c :: rest =>
    if '1' ≤ c ∧ c ≤ '9' then some (digitVal c, rest) else none
  | c :: rest =>
    if '1' ≤ c ∧ c ≤ '9' then some (digitVal c, rest) else none
  | [] => none

/-- `%d`: `3[01]|[12]\d|0[1-9]|[1-9]`, in alternation order. -/
def parseDay : List Char → Option (Nat × List Char)
  | '3' :: c :: rest =>
    if c = '0' ∨ c = '1' then some (30 + digitVal c, rest)
    else some (3, c :: rest)
  | '1' :: c :: rest =>
    if c.isDigit then some (10 + digitVal c, rest) else some (1, c :: rest)
  | '2' :: c :: rest =>
    if c.isDigit then some (20 + digitVal c, rest) else some (2, c :: rest)
  | '0' :: c :: rest =>
    if '1' ≤ c ∧ c ≤ '9' then some (digitVal c, rest) else none
  | c :: rest =>
    if '1' ≤ c ∧ c ≤ '9' then some (digitVal c, rest) else none
  | [] => none

/-- `%Y`: exactly four digits. -/
def parseYear : List Char → Option (Nat × List Char)
  | a :: b :: c :: d :: rest =>
    if a.isDigit && b.isDigit && c.isDigit && d.isDigit then
      some (1000 * digitVal a + 100 * digitVal b + 10 * digitVal c + digitVal d, rest)
    else none
  | _ => none

/-- `datetime.strptime(s, "%m/%d/%Y")` up to (but not including)
calendar validation: the format regex plus the no-unconverted-data
check. -/
def strptimeMDY (s : List Char) : Option (Nat × Nat × Nat) :=
  match parseMonth s with
  | none => none
  | some (m, r1) =>
    match r1 with
    | '/' :: r2 =>
      match parseDay r2 with
      | none => none
      | some (d, r3) =>
        match r3 with
        | '/' :: r4 =>
          match parseYear r4 with
          | none => none
          | some (y, r5) => if r5 = [] then some (m, d, y) else none
        | _ => none
    | _ => none

def isLeapYear (y : Nat) : Bool :=
  (y % 4 == 0 && y % 100 != 0) || y % 400 == 0

def daysInMonth (y m : Nat) : Nat :=
  if m = 2 then (if isLeapYear y then 29 else 28)
  else if m = 4 ∨ m = 6 ∨ m = 9 ∨ m = 11 then 30
  else 31

def digChar (n : Nat) : Char := Char.ofNat (48 + n)

/-- Zero-padded two-digit decimal rendering (`strftime` `%m`, `%d`). -/
def pad2 (n : Nat) : List Char := [digChar (n / 10 % 10), digChar (n % 10)]

/-- Zero-padded four-digit decimal rendering (`strftime` `%Y`). -/
def pad4 (n : Nat) : List Char :=
  [digChar (n / 1000 % 10), digChar (n / 100 % 10),
   digChar (n / 10 % 10), digChar (n % 10)]

/-- The date normalization of `parse_stimulation_data` lines 252-257:
`strptime("%m/%d/%Y")` + `strftime("%Y-%m-%d")`, with every failure
(format mismatch, unconverted data, invalid calendar date) mapped to
`none` by the surrounding `except`. -/
def dateNormalize (s : List Char) : Option String :=
  match strptimeMDY s with
  | none => none
  | some (m, d, y) =>
    if 1 ≤ y ∧ d ≤ daysInMonth y m then
      some ⟨pad4 y ++ '-' :: (pad2 m ++ '-' :: pad2 d)⟩
    else none

/-! ## The record shapes

The Python dictionaries are initialized with every key present and
`None`; extraction only ever overwrites values.  They are therefore
embedded as fixed-shape structures of `Option String`, which makes the
"all keys always present" invariant hold by construction. -/

/-- The `well_data` dictionary of `parse_well_info`. -/
structure WellData where
  operator : Option String
  api_number : Option String
  well_name : Option String
  enseco_job_number : Option String
  job_type : Option String
  county_state : Option String
  well_shl : Option String
  latitude : Option String
  longitude : Option String
  datum : Option String
deriving DecidableEq

/-- The `data` dictionary of `parse_stimulation_data` (13 keys). -/
structure StimData where
  date_stimulated : Option String
  stimulated_formation : Option String
  type_treatment : Option String
  top_depth : Option String
  bottom_depth : Option String
  stimulation_stages : Option String
  volume : Option String
  volume_units : Option String
  acid_percent : Option String
  lbs_proppant : Option String
  max_treatment_pressure : Option String
  max_treatment_rate : Option String
  proppant_details : Option String
deriving DecidableEq

def emptyWell : WellData :=
  ⟨none, none, none, none, none, none, none, none, none, none⟩

def emptyStim : StimData :=
  ⟨none, none, none, none, none, none, none, none, none, none, none, none, none⟩

/-! ## `parse_well_info` -/

def wiHdr : List Char := "Well Information".data
def wdsHdr : List Char := "WELL DATA SUMMARY".data

/-- The leftmost case-insensitive header occurrence of
`re.search(r"(?:Well Information|WELL DATA SUMMARY)(.*)", text,
re.DOTALL | re.IGNORECASE)`: on a hit, group 1 is everything after the
header. -/
def findHeaderRest : List Char → Option (List Char)
  | [] => none
  | c :: cs =>
    if prefixCI wiHdr (c :: cs) then some (List.drop wiHdr.length (c :: cs))
    else if prefixCI wdsHdr (c :: cs) then some (List.drop wdsHdr.length (c :: cs))
    else findHeaderRest cs

/-- Section isolation (`parse_well_info` lines 164-169): the text after
the first header, or the whole text when no header occurs. -/
def sectionIsolate (t : List Char) : List Char :=
  match findHeaderRest t with
  | some rest => rest
  | none => t

/-- One of the two headers matches (case-insensitively) exactly at the
head of `s`. -/
def hdrAt (s : List Char) : Bool := prefixCI wiHdr s || prefixCI wdsHdr s

/-- No header occurrence starts at any of the first `n` positions. -/
def noHdrBefore : Nat → List Char → Bool
  | 0, _ => true
  | _ + 1, [] => true
  | n + 1, c :: cs => !hdrAt (c :: cs) && noHdrBefore n cs

/-- `operator_pattern = r"Operator:\s*(.+?)\s+API"` (IGNORECASE). -/
def operatorPat : RE :=
  RE.seq (RE.litCI "Operator:".data)
    (reseq [sStar, RE.group 1 (RE.seq nNL (RE.starL nNL)), sPlus,
            RE.litCI "API".data])

/-- `api_pattern = r"API\s*#:\s*([0-9\-]+)"`. -/
def apiPat : RE :=
  RE.seq (RE.litCI "API".data)
    (reseq [sStar, RE.litCI "#:".data, sStar,
            RE.group 1 (RE.seq apiC (RE.starG apiC))])

/-- `\s*([^\n]+)` — the common tail of the labelled line patterns. -/
def lineTail : RE := reseq [sStar, RE.group 1 (RE.seq nNL (RE.starG nNL))]

/-- `well_name_pattern = r"Well Name:\s*([^\n]+)"`. -/
def wellNamePat : RE := RE.seq (RE.litCI "Well Name:".data) lineTail

/-- `enseco_job_pattern = r"Enseco\s*Job\s*#:\s*([^\n]+)"`. -/
def ensecoPat : RE :=
  RE.seq (RE.litCI "Enseco".data)
    (reseq [sStar, RE.litCI "Job".data, sStar, RE.litCI "#:".data, sStar,
            RE.group 1 (RE.seq nNL (RE.starG nNL))])

/-- `job_type_pattern = r"Well\s*Type:\s*([^\n]+)"`. -/
def jobTypePat : RE :=
  RE.seq (RE.litCI "Well".data)
    (reseq [sStar, RE.litCI "Type:".data, sStar,
            RE.group 1 (RE.seq nNL (RE.starG nNL))])

/-- `county_state_pattern = r"County,\s*State:\s*([^\n]+)"`. -/
def countyStatePat : RE :=
  RE.seq (RE.litCI "County,".data)
    (reseq [sStar, RE.litCI "State:".data, sStar,
            RE.group 1 (RE.seq nNL (RE.starG nNL))])

/-- `shl_pattern = r"Surface Location:\s*([^\n]+)"`. -/
def shlPat : RE := RE.seq (RE.litCI "Surface Location:".data) lineTail

/-- `latitude_pattern = r"Latitude:\s*([^\n]+)"`. -/
def latitudePat : RE := RE.seq (RE.litCI "Latitude:".data) lineTail

/-- `longitude_pattern = r"Longitude:\s*([^\n]+)"`. -/
def longitudePat : RE := RE.seq (RE.litCI "Longitude:".data) lineTail

/-- `datum_pattern = r"Datum:\s*([^\n]+)"`. -/
def datumPat : RE := RE.seq (RE.litCI "Datum:".data) lineTail

/-- The `match_and_set` helper: case-insensitive search in the section
text, storing group 1 trimmed on a hit and leaving the field alone
(here: `none`) otherwise. -/
def match_and_set (pat : RE) (s : List Char) : Option String :=
  match reSearch pat s with
  | none => none
  | some cp =>
    match cp 1 with
    | some g => some ⟨pyStrip g⟩
    | none => none

/-- `parse_well_info` (lines 147-215): isolate the section, then ten
independent label-anchored extractions. -/
def parse_well_info (text : String) : WellData :=
  let sec := sectionIsolate text.data
  { operator := match_and_set operatorPat sec
    api_number := match_and_set apiPat sec
    well_name := match_and_set wellNamePat sec
    enseco_job_number := match_and_set ensecoPat sec
    job_type := match_and_set jobTypePat sec
    county_state := match_and_set countyStatePat sec
    well_shl := match_and_set shlPat sec
    latitude := match_and_set latitudePat sec
    longitude := match_and_set longitudePat sec
    datum := match_and_set datumPat sec }

/-! ## `parse_stimulation_data` -/

/-- The "Date Stimulated" next-line grammar
`r"(\d{2}/\d{2}/\d{4})\s+(.*?)\s+(\d+)\s+(\d+)\s+(\d+)\s+I\s+(\d+)\s+(\w+)"`
(case-sensitive, `re.match`). -/
def dateLineRE : RE :=
  reseq [RE.group 1 (reseq [dgC, dgC, RE.lit ['/'], dgC, dgC, RE.lit ['/'],
                            dgC, dgC, dgC, dgC]),
         sPlus, RE.group 2 (RE.starL nNL), sPlus, RE.group 3 dPlus, sPlus,
         RE.group 4 dPlus, sPlus, RE.group 5 dPlus, sPlus, RE.lit ['I'],
         sPlus, RE.group 6 dPlus, sPlus, RE.group 7 wPlus]

/-- The "Type Treatment" next-line grammar
`r"(.+?)\s+(\d+)\s+(\d+)\s+([\d.]+)"` (`re.match`). -/
def typeLineRE : RE :=
  reseq [RE.group 1 (RE.seq nNL (RE.starL nNL)), sPlus, RE.group 2 dPlus,
         sPlus, RE.group 3 dPlus, sPlus, RE.group 4 (RE.seq ddC (RE.starG ddC))]

/-- `re.match` of the date-line grammar, returning the seven groups. -/
def dateLineMatch (s : List Char) :
    Option (List Char × List Char × List Char × List Char × List Char ×
            List Char × List Char) :=
  match tryMatch dateLineRE s with
  | none => none
  | some (cp, _) =>
    match cp 1, cp 2, cp 3, cp 4, cp 5, cp 6, cp 7 with
    | some g1, some g2, some g3, some g4, some g5, some g6, some g7 =>
      some (g1, g2, g3, g4, g5, g6, g7)
    | _, _, _, _, _, _, _ => none

/-- `re.match` of the treatment-line grammar, returning the four groups. -/
def typeLineMatch (s : List Char) :
    Option (List Char × List Char × List Char × List Char) :=
  match tryMatch typeLineRE s with
  | none => none
  | some (cp, _) =>
    match cp 1, cp 2, cp 3, cp 4 with
    | some g1, some g2, some g3, some g4 => some (g1, g2, g3, g4)
    | _, _, _, _ => none

/-- The "Date Stimulated" branch (lines 243-263): look at the next
line, and on a grammar hit set the seven fields (the date through the
fail-soft `dateNormalize`). -/
def dateBranch (d : StimData) (rest : List (List Char)) : StimData :=
  match rest.head? with
  | none => d
  | some nl =>
    match dateLineMatch (pyStrip nl) with
    | none => d
    | some (g1, g2, g3, g4, g5, g6, g7) =>
      { d with
        date_stimulated := dateNormalize (pyStrip g1),
        stimulated_formation := some ⟨pyStrip g2⟩,
        top_depth := some ⟨pyStrip g3⟩,
        bottom_depth := some ⟨pyStrip g4⟩,
        stimulation_stages := some ⟨pyStrip g5⟩,
        volume := some ⟨pyStrip g6⟩,
        volume_units := some ⟨pyStrip g7⟩ }

/-- The "Type Treatment" branch (lines 265-274). -/
def typeBranch (d : StimData) (rest : List (List Char)) : StimData :=
  match rest.head? with
  | none => d
  | some nl =>
    match typeLineMatch (pyStrip nl) with
    | none => d
    | some (g1, g2, g3, g4) =>
      { d with
        type_treatment := some ⟨pyStrip g1⟩,
        lbs_proppant := some ⟨pyStrip g2⟩,
        max_treatment_pressure := some ⟨pyStrip g3⟩,
        max_treatment_rate := some ⟨pyStrip g4⟩ }

/-- The detail-line collection of the "Details" branch (lines 277-283):
subsequent lines, trimmed, up to an empty line or a line starting with
another marker. -/
def detailsTake : List (List Char) → List (List Char)
  | [] => []
  | l :: ls =>
    let l' := pyStrip l
    if l'.isEmpty || "Date Stimulated".data.isPrefixOf l' ||
       "Type Treatment".data.isPrefixOf l' then []
    else l' :: detailsTake ls

def joinNL (ls : List (List Char)) : List Char := List.intercalate ['\n'] ls

/-- The first two (independent) marker checks of one loop iteration:
the "Date Stimulated" and "Type Treatment" branches for one stripped
line. -/
def markerSteps (d : StimData) (line : List Char) (rest : List (List Char)) :
    StimData :=
  let d1 := if containsSub "Date Stimulated".data (pyStrip line) then
      dateBranch d rest else d
  if containsSub "Type Treatment".data (pyStrip line) then
    typeBranch d1 rest else d1

/-- The scan loop of `parse_stimulation_data` (lines 240-287): three
independent substring-marker checks per stripped line; the "Details"
branch joins the collected lines (when any) and breaks out of the loop. -/
def scanStim (d : StimData) : List (List Char) → StimData
  | [] => d
  | line :: rest =>
    let d2 := markerSteps d line rest
    if containsSub "Details".data (pyStrip line) then
      let dls := detailsTake rest
      if dls.isEmpty then d2
      else { d2 with proppant_details := some ⟨joinNL dls⟩ }
    else scanStim d2 rest

/-- `parse_stimulation_data` (lines 217-289). -/
def parse_stimulation_data (text : String) : StimData :=
  scanStim emptyStim (splitlines text.data)

/-! ## The forwarding decision of `main` (lines 429-448) -/

/-- A record handed to the persistence collaborator. -/
inductive Forwarded where
  | well : WellData → Forwarded
  | stim : StimData → Forwarded
deriving DecidableEq

/-- Python truthiness of an optional string (`None` and `""` are falsy). -/
def truthy : Option String → Bool
  | none => false
  | some s => !(s == "")

/-- The per-document body of `main`: the well record is always
inserted (first, to obtain `well_info_id`); the stimulation record only
when `stim_data["date_stimulated"] or stim_data["stimulated_formation"]`
is truthy. -/
def mainForwardedRecords (text : String) : List Forwarded :=
  let well_info := parse_well_info text
  let stim_data := parse_stimulation_data text
  Forwarded.well well_info ::
    (if truthy stim_data.date_stimulated || truthy stim_data.stimulated_formation
     then [Forwarded.stim stim_data] else [])

/-! ## Helper lemmas -/

theorem normNewlines_cons_of_ne (c : Char) (s : List Char) (hc : c ≠ '\r') :
    normNewlines (c :: s) = c :: normNewlines s := by
  cases s with
  | nil => rfl
  | cons d cs =>
    simp only [normNewlines]
    rw [if_neg]
    rintro ⟨h, -⟩
    exact hc h

theorem normNewlines_append (l m : List Char)
    (h : ∀ c ∈ l, isLineBreak c = false) :
    normNewlines (l ++ m) = l ++ normNewlines m := by
  induction l with
  | nil => rfl
  | cons c l ih =>
    have hc : c ≠ '\r' := by
      intro heq
      have := h c (by simp)
      rw [heq] at this
      simp [isLineBreak] at this
    rw [List.cons_append, normNewlines_cons_of_ne c _ hc,
      ih (fun d hd => h d (by simp [hd])), List.cons_append]

theorem splitlinesAux_append_line (l r : List Char)
    (h : ∀ c ∈ l, isLineBreak c = false) :
    splitlinesAux (l ++ '\n' :: r) = l :: splitlinesAux r := by
  induction l with
  | nil => simp [splitlinesAux, isLineBreak]
  | cons c l ih =>
    have hc : isLineBreak c = false := h c (by simp)
    rw [List.cons_append]
    simp only [splitlinesAux, hc]
    rw [ih (fun d hd => h d (by simp [hd]))]
    simp

theorem splitlinesAux_single (s : List Char) (h0 : s ≠ [])
    (h : ∀ c ∈ s, isLineBreak c = false) :
    splitlinesAux s = [s] := by
  induction s with
  | nil => exact absurd rfl h0
  | cons c cs ih =>
    have hc : isLineBreak c = false := h c (by simp)
    simp only [splitlinesAux, hc]
    cases hcs : cs with
    | nil => simp [splitlinesAux]
    | cons d ds =>
      rw [← hcs, ih (by simp [hcs]) (fun d hd => h d (by simp [hd]))]
      simp

theorem splitlines_two_lines (l s : List Char)
    (hl : ∀ c ∈ l, isLineBreak c = false) (hs0 : s ≠ [])
    (hs : ∀ c ∈ s, isLineBreak c = false) :
    splitlines (l ++ '\n' :: s) = [l, s] := by
  have hns : normNewlines s = s := by
    have := normNewlines_append s [] hs
    simpa [normNewlines] using this
  unfold splitlines
  rw [normNewlines_append l _ hl,
    normNewlines_cons_of_ne '\n' s (by decide), hns,
    splitlinesAux_append_line l s hl, splitlinesAux_single s hs0 hs]

theorem pyStrip_eq_self (l : List Char)
    (h : ∀ c ∈ l, pyIsSpace c = false) :
    pyStrip l = l := by
  have drop1 : l.dropWhile pyIsSpace = l := by
    cases l with
    | nil => rfl
    | cons c cs => simp [List.dropWhile, h c (by simp)]
  have drop2 : l.reverse.dropWhile pyIsSpace = l.reverse := by
    cases hr : l.reverse with
    | nil => rfl
    | cons c cs =>
      have hc : c ∈ l := by
        rw [← List.mem_reverse, hr]; simp
      simp [List.dropWhile, h c hc]
  unfold pyStrip
  rw [drop1, drop2, List.reverse_reverse]

theorem dateBranch_proppant (d : StimData) (rest : List (List Char)) :
    (dateBranch d rest).proppant_details = d.proppant_details := by
  rcases hh : rest.head? with - | nl
  · simp [dateBranch, hh]
  · rcases h : dateLineMatch (pyStrip nl) with - | ⟨g1, g2, g3, g4, g5, g6, g7⟩ <;>
      simp [dateBranch, hh, h]

theorem typeBranch_proppant (d : StimData) (rest : List (List Char)) :
    (typeBranch d rest).proppant_details = d.proppant_details := by
  rcases hh : rest.head? with - | nl
  · simp [typeBranch, hh]
  · rcases h : typeLineMatch (pyStrip nl) with - | ⟨g1, g2, g3, g4⟩ <;>
      simp [typeBranch, hh, h]

theorem dateBranch_acid (d : StimData) (rest : List (List Char)) :
    (dateBranch d rest).acid_percent = d.acid_percent := by
  rcases hh : rest.head? with - | nl
  · simp [dateBranch, hh]
  · rcases h : dateLineMatch (pyStrip nl) with - | ⟨g1, g2, g3, g4, g5, g6, g7⟩ <;>
      simp [dateBranch, hh, h]

theorem typeBranch_acid (d : StimData) (rest : List (List Char)) :
    (typeBranch d rest).acid_percent = d.acid_percent := by
  rcases hh : rest.head? with - | nl
  · simp [typeBranch, hh]
  · rcases h : typeLineMatch (pyStrip nl) with - | ⟨g1, g2, g3, g4⟩ <;>
      simp [typeBranch, hh, h]

theorem markerSteps_acid (d : StimData) (line : List Char)
    (rest : List (List Char)) :
    (markerSteps d line rest).acid_percent = d.acid_percent := by
  unfold markerSteps
  split
  · split
    · rw [typeBranch_acid, dateBranch_acid]
    · exact dateBranch_acid d rest
  · split
    · exact typeBranch_acid d rest
    · rfl

theorem markerSteps_proppant (d : StimData) (line : List Char)
    (rest : List (List Char)) :
    (markerSteps d line rest).proppant_details = d.proppant_details := by
  unfold markerSteps
  split
  · split
    · rw [typeBranch_proppant, dateBranch_proppant]
    · exact dateBranch_proppant d rest
  · split
    · exact typeBranch_proppant d rest
    · rfl

theorem dateBranch_congr (d : StimData) (rest rest' : List (List Char))
    (h : rest.head? = rest'.head?) :
    dateBranch d rest = dateBranch d rest' := by
  unfold dateBranch
  rw [h]

theorem typeBranch_congr (d : StimData) (rest rest' : List (List Char))
    (h : rest.head? = rest'.head?) :
    typeBranch d rest = typeBranch d rest' := by
  unfold typeBranch
  rw [h]

theorem markerSteps_congr (d : StimData) (line : List Char)
    (rest rest' : List (List Char)) (h : rest.head? = rest'.head?) :
    markerSteps d line rest = markerSteps d line rest' := by
  cases hA : containsSub "Date Stimulated".data (pyStrip line) <;>
    cases hB : containsSub "Type Treatment".data (pyStrip line) <;>
      simp [markerSteps, hA, hB]
  · exact typeBranch_congr d rest rest' h
  · exact dateBranch_congr d rest rest' h
  · rw [dateBranch_congr d rest rest' h, typeBranch_congr _ rest rest' h]

theorem scanStim_acid (d : StimData) (lines : List (List Char)) :
    (scanStim d lines).acid_percent = d.acid_percent := by
  induction lines generalizing d with
  | nil => rfl
  | cons line rest ih =>
    simp only [scanStim]
    split
    · split
      · exact markerSteps_acid d line rest
      · exact markerSteps_acid d line rest
    · rw [ih (markerSteps d line rest), markerSteps_acid]

theorem scanStim_nil (d : StimData) : scanStim d [] = d := rfl

theorem scanStim_cons_skip (d : StimData) (line : List Char)
    (rest : List (List Char))
    (h1 : containsSub "Date Stimulated".data (pyStrip line) = false)
    (h2 : containsSub "Type Treatment".data (pyStrip line) = false)
    (h3 : containsSub "Details".data (pyStrip line) = false) :
    scanStim d (line :: rest) = scanStim d rest := by
  simp [scanStim, markerSteps, h1, h2, h3]

theorem scanStim_cons_dateline (d : StimData) (rest : List (List Char)) :
    scanStim d ("Date Stimulated".data :: rest) =
      scanStim (dateBranch d rest) rest := by
  simp [scanStim, markerSteps,
    show pyStrip "Date Stimulated".data = "Date Stimulated".data from by decide,
    show containsSub "Date Stimulated".data "Date Stimulated".data = true from by
      decide,
    show containsSub "Type Treatment".data "Date Stimulated".data = false from by
      decide,
    show containsSub "Details".data "Date Stimulated".data = false from by decide]

theorem scanStim_cons_typeline (d : StimData) (rest : List (List Char)) :
    scanStim d ("Type Treatment".data :: rest) =
      scanStim (typeBranch d rest) rest := by
  simp [scanStim, markerSteps,
    show pyStrip "Type Treatment".data = "Type Treatment".data from by decide,
    show containsSub "Date Stimulated".data "Type Treatment".data = false from by
      decide,
    show containsSub "Type Treatment".data "Type Treatment".data = true from by
      decide,
    show containsSub "Details".data "Type Treatment".data = false from by decide]

theorem scanStim_cons_nodetails (d : StimData) (line : List Char)
    (rest : List (List Char))
    (h : containsSub "Details".data (pyStrip line) = false) :
    scanStim d (line :: rest) = scanStim (markerSteps d line rest) rest := by
  simp [scanStim, h]

theorem scanStim_cons_details (d : StimData) (line : List Char)
    (rest : List (List Char))
    (h : containsSub "Details".data (pyStrip line) = true) :
    scanStim d (line :: rest) =
      (if (detailsTake rest).isEmpty then markerSteps d line rest
       else { markerSteps d line rest with
              proppant_details := some ⟨joinNL (detailsTake rest)⟩ }) := by
  simp [scanStim, h]

theorem head?_append_cons {α : Type} (pre : List α) (x : α) (r r' : List α) :
    (pre ++ x :: r).head? = (pre ++ x :: r').head? := by
  cases pre <;> simp

/-! ## Claims -/

/-- C10: for every input text, the `acid_percent` field of the
stimulation record returned by `parse_stimulation_data` is unset: it is
initialized unset and no extraction branch ever assigns it, even though
the record shape (and the persistence schema) includes it. -/
theorem acid_percent_never_set (text : String) :
    (parse_stimulation_data text).acid_percent = none := by
  unfold parse_stimulation_data
  rw [scanStim_acid]
  rfl

/-- C10 witness: the field stays unset even on a document whose other
stimulation fields are all populated. -/
theorem acid_percent_never_set_check :
    (parse_stimulation_data
        "Date Stimulated\n06/09/2015 F 1 2 3 I 4 Barrels\nType Treatment\nSand Frac 1 2 3.0\nDetails\nstuff").acid_percent =
      none :=
  acid_percent_never_set
    "Date Stimulated\n06/09/2015 F 1 2 3 I 4 Barrels\nType Treatment\nSand Frac 1 2 3.0\nDetails\nstuff"

/-- C1: in a document consisting of a "Date Stimulated" marker line
followed by one more line, the seven date-block fields are populated
exactly when the next line matches the positional grammar
`(\d{2}/\d{2}/\d{4})\s+(.*?)\s+(\d+)\s+(\d+)\s+(\d+)\s+I\s+(\d+)\s+(\w+)`
(each capture trimmed, the date through the normalizer), and a
non-matching next line leaves every field unset with no partial
capture. -/
theorem dateStimulated_block_extraction (s : List Char)
    (h0 : s ≠ [])
    (h1 : ∀ c ∈ s, isLineBreak c = false)
    (h2 : containsSub "Date Stimulated".data (pyStrip s) = false)
    (h3 : containsSub "Type Treatment".data (pyStrip s) = false)
    (h4 : containsSub "Details".data (pyStrip s) = false) :
    parse_stimulation_data ⟨"Date Stimulated\n".data ++ s⟩ =
      match dateLineMatch (pyStrip s) with
      | none => emptyStim
      | some (g1, g2, g3, g4, g5, g6, g7) =>
        { emptyStim with
          date_stimulated := dateNormalize (pyStrip g1),
          stimulated_formation := some ⟨pyStrip g2⟩,
          top_depth := some ⟨pyStrip g3⟩,
          bottom_depth := some ⟨pyStrip g4⟩,
          stimulation_stages := some ⟨pyStrip g5⟩,
          volume := some ⟨pyStrip g6⟩,
          volume_units := some ⟨pyStrip g7⟩ } := by
  unfold parse_stimulation_data
  have hdata : (String.mk ("Date Stimulated\n".data ++ s)).data
      = "Date Stimulated".data ++ '\n' :: s := by
    show "Date Stimulated\n".data ++ s = _
    rw [show "Date Stimulated\n".data = "Date Stimulated".data ++ ['\n'] from by
      decide, List.append_assoc]
    rfl
  rw [hdata, splitlines_two_lines _ _ (by decide) h0 h1,
    scanStim_cons_dateline, scanStim_cons_skip _ _ _ h2 h3 h4, scanStim_nil]
  rcases hm : dateLineMatch (pyStrip s) with - | ⟨g1, g2, g3, g4, g5, g6, g7⟩ <;>
    simp [dateBranch, hm, emptyStim]

/-- C1 witness: the literal line pair of the claim yields exactly the
record of the claim. -/
theorem dateStimulated_block_extraction_check :
    (("06/09/2015 Three Forks Second Bench 11185 20754 50 I 126978 Barrels".data ≠
        ([] : List Char)) ∧
      (∀ c ∈ "06/09/2015 Three Forks Second Bench 11185 20754 50 I 126978 Barrels".data,
        isLineBreak c = false)) ∧
    parse_stimulation_data
        ⟨"Date Stimulated\n".data ++
          "06/09/2015 Three Forks Second Bench 11185 20754 50 I 126978 Barrels".data⟩ =
      { emptyStim with
        date_stimulated := some "2015-06-09",
        stimulated_formation := some "Three Forks Second Bench",
        top_depth := some "11185",
        bottom_depth := some "20754",
        stimulation_stages := some "50",
        volume := some "126978",
        volume_units := some "Barrels" } :=
  ⟨by decide, by
    have h := dateStimulated_block_extraction
      "06/09/2015 Three Forks Second Bench 11185 20754 50 I 126978 Barrels".data
      (by decide) (by decide) (by decide) (by decide) (by decide)
    exact h.trans (by decide)⟩

/-- C2: in a document consisting of a "Type Treatment" marker line
followed by one more line, the four treatment fields are populated
exactly when the next line matches `(.+?)\s+(\d+)\s+(\d+)\s+([\d.]+)`
(each capture trimmed), and a non-matching next line leaves them
unset. -/
theorem typeTreatment_block_extraction (s : List Char)
    (h0 : s ≠ [])
    (h1 : ∀ c ∈ s, isLineBreak c = false)
    (h2 : containsSub "Date Stimulated".data (pyStrip s) = false)
    (h3 : containsSub "Type Treatment".data (pyStrip s) = false)
    (h4 : containsSub "Details".data (pyStrip s) = false) :
    parse_stimulation_data ⟨"Type Treatment\n".data ++ s⟩ =
      match typeLineMatch (pyStrip s) with
      | none => emptyStim
      | some (g1, g2, g3, g4) =>
        { emptyStim with
          type_treatment := some ⟨pyStrip g1⟩,
          lbs_proppant := some ⟨pyStrip g2⟩,
          max_treatment_pressure := some ⟨pyStrip g3⟩,
          max_treatment_rate := some ⟨pyStrip g4⟩ } := by
  unfold parse_stimulation_data
  have hdata : (String.mk ("Type Treatment\n".data ++ s)).data
      = "Type Treatment".data ++ '\n' :: s := by
    show "Type Treatment\n".data ++ s = _
    rw [show "Type Treatment\n".data = "Type Treatment".data ++ ['\n'] from by
      decide, List.append_assoc]
    rfl
  rw [hdata, splitlines_two_lines _ _ (by decide) h0 h1,
    scanStim_cons_typeline, scanStim_cons_skip _ _ _ h2 h3 h4, scanStim_nil]
  rcases hm : typeLineMatch (pyStrip s) with - | ⟨g1, g2, g3, g4⟩ <;>
    simp [typeBranch, hm, emptyStim]

/-- C2 witness: the literal line pair of the claim yields exactly the
record of the claim. -/
theorem typeTreatment_block_extraction_check :
    (("Sand Frac 4230380 9122 39.0".data ≠ ([] : List Char)) ∧
      (∀ c ∈ "Sand Frac 4230380 9122 39.0".data, isLineBreak c = false)) ∧
    parse_stimulation_data
        ⟨"Type Treatment\n".data ++ "Sand Frac 4230380 9122 39.0".data⟩ =
      { emptyStim with
        type_treatment := some "Sand Frac",
        lbs_proppant := some "4230380",
        max_treatment_pressure := some "9122",
        max_treatment_rate := some "39.0" } :=
  ⟨by decide, by
    have h := typeTreatment_block_extraction "Sand Frac 4230380 9122 39.0".data
      (by decide) (by decide) (by decide) (by decide) (by decide)
    exact h.trans (by decide)⟩

/-- C3: on reaching the first line containing "Details", the scan
collects every subsequent line, trimmed, until an empty line or a line
beginning with "Date Stimulated" or "Type Treatment"; it joins the
collected lines with newline separators into `proppant_details`
(leaving the field untouched when nothing was collected), and then
terminates the scan entirely: the result is invariant under replacing
everything after the collected block and the inspected next line, so a
second, later "Details" block and the markers of later lines are never
processed.  `scanStim emptyStim` is exactly `parse_stimulation_data`
on the document's line list. -/
theorem details_first_block (d0 : StimData) (pre : List (List Char))
    (dline : List Char) (rest rest' : List (List Char))
    (h1 : ∀ l ∈ pre, containsSub "Details".data (pyStrip l) = false)
    (h2 : containsSub "Details".data (pyStrip dline) = true)
    (h3 : rest.head? = rest'.head?)
    (h4 : detailsTake rest = detailsTake rest') :
    (scanStim d0 (pre ++ dline :: rest)).proppant_details =
      (if detailsTake rest = [] then d0.proppant_details
       else some ⟨joinNL (detailsTake rest)⟩) ∧
    scanStim d0 (pre ++ dline :: rest) = scanStim d0 (pre ++ dline :: rest') := by
  induction pre generalizing d0 with
  | nil =>
    simp only [List.nil_append]
    rw [scanStim_cons_details _ _ _ h2, scanStim_cons_details _ _ _ h2]
    constructor
    · cases hdt : detailsTake rest with
      | nil => simp [hdt, markerSteps_proppant]
      | cons a as => simp [hdt, markerSteps_proppant]
    · rw [← h4, markerSteps_congr d0 dline rest rest' h3]
  | cons l pre' ih =>
    have hl : containsSub "Details".data (pyStrip l) = false := h1 l (by simp)
    rw [List.cons_append, List.cons_append,
      scanStim_cons_nodetails _ _ _ hl, scanStim_cons_nodetails _ _ _ hl]
    have hms : markerSteps d0 l (pre' ++ dline :: rest')
        = markerSteps d0 l (pre' ++ dline :: rest) :=
      markerSteps_congr _ _ _ _ (head?_append_cons pre' dline rest' rest)
    rw [hms]
    have hres := ih (markerSteps d0 l (pre' ++ dline :: rest))
      (fun x hx => h1 x (by simp [hx]))
    rw [markerSteps_proppant] at hres
    exact hres

/-- C3 witness: a "Details" marker followed by two non-empty lines and
a blank line yields the two trimmed lines joined by a newline, and the
lines beyond the blank line (a second "Details" block on one side, a
"Type Treatment" block on the other) are irrelevant to the result. -/
theorem details_first_block_check :
    ((∀ l ∈ ["intro line".data], containsSub "Details".data (pyStrip l) = false) ∧
      containsSub "Details".data (pyStrip "Stimulation Details".data) = true ∧
      (["alpha one".data, " beta two ".data, [],
        "Details".data, "gamma".data].head? =
       (["alpha one".data, " beta two ".data, [],
         "Type Treatment".data, "9 9 9 9".data].head? : Option (List Char))) ∧
      detailsTake ["alpha one".data, " beta two ".data, [],
        "Details".data, "gamma".data] =
        detailsTake ["alpha one".data, " beta two ".data, [],
          "Type Treatment".data, "9 9 9 9".data]) ∧
    (scanStim emptyStim ("intro line".data :: "Stimulation Details".data ::
        ["alpha one".data, " beta two ".data, [],
         "Details".data, "gamma".data])).proppant_details =
      some "alpha one\nbeta two" ∧
    scanStim emptyStim ("intro line".data :: "Stimulation Details".data ::
        ["alpha one".data, " beta two ".data, [],
         "Details".data, "gamma".data]) =
      scanStim emptyStim ("intro line".data :: "Stimulation Details".data ::
        ["alpha one".data, " beta two ".data, [],
         "Type Treatment".data, "9 9 9 9".data]) :=
  ⟨by decide,
    ((details_first_block emptyStim ["intro line".data]
        "Stimulation Details".data
        ["alpha one".data, " beta two ".data, [], "Details".data, "gamma".data]
        ["alpha one".data, " beta two ".data, [], "Type Treatment".data,
          "9 9 9 9".data]
        (by decide) (by decide) (by decide) (by decide)).1).trans (by decide),
    (details_first_block emptyStim ["intro line".data]
        "Stimulation Details".data
        ["alpha one".data, " beta two ".data, [], "Details".data, "gamma".data]
        ["alpha one".data, " beta two ".data, [], "Type Treatment".data,
          "9 9 9 9".data]
        (by decide) (by decide) (by decide) (by decide)).2⟩

/-- C4 (amended): the well record is always forwarded, and first; the
stimulation record is forwarded if and only if `date_stimulated` or
`stimulated_formation` carries a truthy value — set AND non-empty —
because `main` tests Python truthiness, under which an empty string
behaves like an unset field. -/
theorem forwarding_decision (t : String) :
    (mainForwardedRecords t).head? = some (Forwarded.well (parse_well_info t)) ∧
    (Forwarded.stim (parse_stimulation_data t) ∈ mainForwardedRecords t ↔
      (truthy (parse_stimulation_data t).date_stimulated ||
       truthy (parse_stimulation_data t).stimulated_formation) = true) := by
  constructor
  · simp [mainForwardedRecords]
  · by_cases h : (truthy (parse_stimulation_data t).date_stimulated ||
        truthy (parse_stimulation_data t).stimulated_formation) = true
    · simp [mainForwardedRecords, h]
    · simp [mainForwardedRecords, h]

/-- C4 witness: the two forwarding outcomes at a concrete document. -/
theorem forwarding_decision_check :
    (mainForwardedRecords "Date Stimulated\n06/09/2015 F 1 2 3 I 4 Barrels").head? =
      some (Forwarded.well
        (parse_well_info "Date Stimulated\n06/09/2015 F 1 2 3 I 4 Barrels")) ∧
    (Forwarded.stim
        (parse_stimulation_data
          "Date Stimulated\n06/09/2015 F 1 2 3 I 4 Barrels") ∈
      mainForwardedRecords "Date Stimulated\n06/09/2015 F 1 2 3 I 4 Barrels" ↔
      (truthy (parse_stimulation_data
          "Date Stimulated\n06/09/2015 F 1 2 3 I 4 Barrels").date_stimulated ||
       truthy (parse_stimulation_data
          "Date Stimulated\n06/09/2015 F 1 2 3 I 4 Barrels").stimulated_formation) =
        true) :=
  forwarding_decision "Date Stimulated\n06/09/2015 F 1 2 3 I 4 Barrels"

/-- C4 counterexample: on this document `stimulated_formation` IS set
(to the empty string: the lazy formation group matches the gap between
the two spaces) while `date_stimulated` is unset ("00" is no month),
yet the stimulation record is NOT forwarded — only the well record is.
The claim's "forwarded iff date_stimulated is set or
stimulated_formation is set" is therefore false at this input. -/
theorem forwarding_decision_counterexample :
    (parse_stimulation_data
        "Date Stimulated\n00/10/2015  1 2 3 I 4 Barrels").stimulated_formation =
      some "" ∧
    (parse_stimulation_data
        "Date Stimulated\n00/10/2015  1 2 3 I 4 Barrels").date_stimulated =
      none ∧
    mainForwardedRecords "Date Stimulated\n00/10/2015  1 2 3 I 4 Barrels" =
      [Forwarded.well
        (parse_well_info "Date Stimulated\n00/10/2015  1 2 3 I 4 Barrels")] := by
  refine ⟨by decide, by decide, ?_⟩
  have hd : (truthy (parse_stimulation_data
        "Date Stimulated\n00/10/2015  1 2 3 I 4 Barrels").date_stimulated ||
      truthy (parse_stimulation_data
        "Date Stimulated\n00/10/2015  1 2 3 I 4 Barrels").stimulated_formation) =
      false := by decide
  simp [mainForwardedRecords, hd]

/-- C8 (code-bug exhibit): with two "Date Stimulated" episode blocks
and no "Details" line, the scan does not stop after the first block —
the second block overwrites every field captured from the first, so
the returned record holds the SECOND episode, contradicting both the
claim and the function's own docstring ("It captures the first block
of stimulation data"). -/
theorem second_block_overwrites_first :
    parse_stimulation_data
        "Date Stimulated\n06/09/2015 FormA 1 2 3 I 4 Barrels\nDate Stimulated\n07/10/2016 FormB 5 6 7 I 8 Gallons" =
      { emptyStim with
        date_stimulated := some "2016-07-10",
        stimulated_formation := some "FormB",
        top_depth := some "5",
        bottom_depth := some "6",
        stimulation_stages := some "7",
        volume := some "8",
        volume_units := some "Gallons" } ∧
    (parse_stimulation_data
        "Date Stimulated\n06/09/2015 FormA 1 2 3 I 4 Barrels\nDate Stimulated\n07/10/2016 FormB 5 6 7 I 8 Gallons").stimulated_formation ≠
      some "FormA" := by
  exact ⟨by decide, by decide⟩

theorem digChar_isDigit {k : Nat} (h : k < 10) : (digChar k).isDigit = true := by
  interval_cases k <;> decide

theorem digitVal_digChar {k : Nat} (h : k < 10) : digitVal (digChar k) = k := by
  interval_cases k <;> decide

theorem parseMonth_pad2 (m : Nat) (h1 : 1 ≤ m) (h2 : m ≤ 12)
    (rest : List Char) : parseMonth (pad2 m ++ rest) = some (m, rest) := by
  interval_cases m <;> rfl

theorem parseDay_pad2 (d : Nat) (h1 : 1 ≤ d) (h2 : d ≤ 31)
    (rest : List Char) : parseDay (pad2 d ++ rest) = some (d, rest) := by
  interval_cases d <;> rfl

theorem parseYear_pad4 (y : Nat) (h : y ≤ 9999) (rest : List Char) :
    parseYear (pad4 y ++ rest) = some (y, rest) := by
  have m1 : y / 1000 % 10 < 10 := Nat.mod_lt _ (by norm_num)
  have m2 : y / 100 % 10 < 10 := Nat.mod_lt _ (by norm_num)
  have m3 : y / 10 % 10 < 10 := Nat.mod_lt _ (by norm_num)
  have m4 : y % 10 < 10 := Nat.mod_lt _ (by norm_num)
  simp only [pad4, List.cons_append, List.nil_append, parseYear,
    digChar_isDigit m1, digChar_isDigit m2, digChar_isDigit m3,
    digChar_isDigit m4, Bool.and_self, if_true,
    digitVal_digChar m1, digitVal_digChar m2, digitVal_digChar m3,
    digitVal_digChar m4]
  refine congrArg some (Prod.ext ?_ rfl)
  show 1000 * (y / 1000 % 10) + 100 * (y / 100 % 10) + 10 * (y / 10 % 10) +
      y % 10 = y
  omega

theorem parseYear_pad4_nil (y : Nat) (h : y ≤ 9999) :
    parseYear (pad4 y) = some (y, []) := by
  have := parseYear_pad4 y h []
  rwa [List.append_nil] at this

theorem daysInMonth_le_31 (y m : Nat) : daysInMonth y m ≤ 31 := by
  unfold daysInMonth
  split
  · split <;> norm_num
  · split <;> norm_num

/-- C6: date normalization maps a (zero-padded) MM/DD/YYYY token for
any valid calendar date to its ISO YYYY-MM-DD rendering; a parse
failure — wrong format or an invalid calendar date such as
"13/40/2015" — yields unset instead of an error, and the other fields
captured from the same line stay intact (here: the formation captured
next to the unparseable date "13/40/2015"). -/
theorem dateNormalize_mdy (m d y : Nat) (h1 : 1 ≤ m) (h2 : m ≤ 12)
    (h3 : 1 ≤ d) (h4 : d ≤ daysInMonth y m) (h5 : 1 ≤ y) (h6 : y ≤ 9999) :
    dateNormalize (pad2 m ++ '/' :: (pad2 d ++ '/' :: pad4 y)) =
      some ⟨pad4 y ++ '-' :: (pad2 m ++ '-' :: pad2 d)⟩ ∧
    dateNormalize "13/40/2015".data = none ∧
    dateNormalize "06-09-2015".data = none ∧
    (parse_stimulation_data
        "Date Stimulated\n13/40/2015 Foo 1 2 3 I 4 Barrels").date_stimulated =
      none ∧
    (parse_stimulation_data
        "Date Stimulated\n13/40/2015 Foo 1 2 3 I 4 Barrels").stimulated_formation =
      some "Foo" := by
  refine ⟨?_, by decide, by decide, by decide, by decide⟩
  have hd31 : d ≤ 31 := le_trans h4 (daysInMonth_le_31 y m)
  simp only [dateNormalize, strptimeMDY, parseMonth_pad2 m h1 h2,
    parseDay_pad2 d h3 hd31, parseYear_pad4_nil y h6]
  simp [h4, h5]

/-- C6 witness: the claim's own example token. -/
theorem dateNormalize_mdy_check :
    (1 ≤ 6 ∧ 6 ≤ 12 ∧ 1 ≤ 9 ∧ 9 ≤ daysInMonth 2015 6 ∧ 1 ≤ 2015 ∧
      2015 ≤ 9999) ∧
    dateNormalize "06/09/2015".data = some "2015-06-09" :=
  ⟨by decide, by
    have h := (dateNormalize_mdy 6 9 2015 (by decide) (by decide) (by decide)
      (by decide) (by decide) (by decide)).1
    rw [show pad2 6 ++ '/' :: (pad2 9 ++ '/' :: pad4 2015) =
      "06/09/2015".data from by decide] at h
    exact h.trans (by decide)⟩

theorem prefixCI_iff_take (p : List Char) : ∀ s : List Char,
    prefixCI p s = true ↔
      (s.map Char.toLower).take p.length = p.map Char.toLower := by
  induction p with
  | nil => intro s; simp [prefixCI]
  | cons a as ih =>
    intro s
    cases s with
    | nil => simp [prefixCI]
    | cons b bs =>
      simp only [prefixCI, List.map_cons, List.length_cons,
        List.take_succ_cons, Bool.and_eq_true, beq_iff_eq, List.cons.injEq]
      rw [ih bs]
      constructor <;> rintro ⟨hx, hy⟩ <;> exact ⟨hx.symm, hy⟩

theorem findHeaderRest_none : ∀ t : List Char,
    containsCI wiHdr t = false → containsCI wdsHdr t = false →
    findHeaderRest t = none := by
  intro t
  induction t with
  | nil => intro _ _; rfl
  | cons c cs ih =>
    intro hA hB
    obtain ⟨hA1, hA2⟩ : prefixCI wiHdr (c :: cs) = false ∧
        containsCI wiHdr cs = false := by
      simpa [containsCI, Bool.or_eq_false_iff] using hA
    obtain ⟨hB1, hB2⟩ : prefixCI wdsHdr (c :: cs) = false ∧
        containsCI wdsHdr cs = false := by
      simpa [containsCI, Bool.or_eq_false_iff] using hB
    simp [findHeaderRest, hA1, hB1, ih hA2 hB2]

theorem findHeaderRest_wi (hd post : List Char)
    (hm : hd.map Char.toLower = wiHdr.map Char.toLower) :
    ∀ pre : List Char, noHdrBefore pre.length (pre ++ hd ++ post) = true →
    findHeaderRest (pre ++ hd ++ post) = some post := by
  have hlen : hd.length = wiHdr.length := by
    have := congrArg List.length hm
    simpa using this
  intro pre
  induction pre with
  | nil =>
    intro _
    simp only [List.nil_append]
    have hpre : prefixCI wiHdr (hd ++ post) = true := by
      rw [prefixCI_iff_take, List.map_append,
        List.take_append_of_le_length (by simp [hlen]), hm]
      simp
    have hdrop : List.drop wiHdr.length (hd ++ post) = post := by
      rw [← hlen]
      exact List.drop_left hd post
    cases hd with
    | nil => exact absurd hlen (by decide)
    | cons c hs =>
      rw [List.cons_append] at hpre hdrop ⊢
      simp [findHeaderRest, hpre, hdrop]
  | cons c pre' ih =>
    intro hn
    simp only [List.cons_append, List.length_cons, List.append_assoc] at hn ⊢
    simp only [noHdrBefore, Bool.and_eq_true, Bool.not_eq_true'] at hn
    obtain ⟨hno, hn'⟩ := hn
    simp only [hdrAt, Bool.or_eq_false_iff] at hno
    have ih' := ih (by simpa [List.append_assoc] using hn')
    simp only [List.append_assoc] at ih'
    simp [findHeaderRest, hno.1, hno.2, ih']

theorem findHeaderRest_wds (hd post : List Char)
    (hm : hd.map Char.toLower = wdsHdr.map Char.toLower) :
    ∀ pre : List Char, noHdrBefore pre.length (pre ++ hd ++ post) = true →
    findHeaderRest (pre ++ hd ++ post) = some post := by
  have hlen : hd.length = wdsHdr.length := by
    have := congrArg List.length hm
    simpa using this
  intro pre
  induction pre with
  | nil =>
    intro _
    simp only [List.nil_append]
    have hpre1 : prefixCI wiHdr (hd ++ post) = false := by
      cases hb : prefixCI wiHdr (hd ++ post) with
      | false => rfl
      | true =>
        have htk := (prefixCI_iff_take wiHdr (hd ++ post)).mp hb
        rw [List.map_append,
          List.take_append_of_le_length (by simp [hlen]; decide), hm] at htk
        exact absurd htk (by decide)
    have hpre2 : prefixCI wdsHdr (hd ++ post) = true := by
      rw [prefixCI_iff_take, List.map_append,
        List.take_append_of_le_length (by simp [hlen]), hm]
      simp
    have hdrop : List.drop wdsHdr.length (hd ++ post) = post := by
      rw [← hlen]
      exact List.drop_left hd post
    cases hd with
    | nil => exact absurd hlen (by decide)
    | cons c hs =>
      rw [List.cons_append] at hpre1 hpre2 hdrop ⊢
      simp [findHeaderRest, hpre1, hpre2, hdrop]
  | cons c pre' ih =>
    intro hn
    simp only [List.cons_append, List.length_cons, List.append_assoc] at hn ⊢
    simp only [noHdrBefore, Bool.and_eq_true, Bool.not_eq_true'] at hn
    obtain ⟨hno, hn'⟩ := hn
    simp only [hdrAt, Bool.or_eq_false_iff] at hno
    have ih' := ih (by simpa [List.append_assoc] using hn')
    simp only [List.append_assoc] at ih'
    simp [findHeaderRest, hno.1, hno.2, ih']

/-- C5: section isolation returns the substring following the first
case-insensitive occurrence of "Well Information" or
"WELL DATA SUMMARY" (excluding the header and all text before it), and
returns the input unchanged when neither header occurs anywhere.
`sectionIsolate` is the first step of `parse_well_info`. -/
theorem section_isolation (u t1 t2 pre1 hd1 post1 pre2 hd2 post2 : List Char)
    (hu1 : containsCI wiHdr u = false) (hu2 : containsCI wdsHdr u = false)
    (he1 : t1 = pre1 ++ hd1 ++ post1)
    (hm1 : hd1.map Char.toLower = wiHdr.map Char.toLower)
    (hn1 : noHdrBefore pre1.length t1 = true)
    (he2 : t2 = pre2 ++ hd2 ++ post2)
    (hm2 : hd2.map Char.toLower = wdsHdr.map Char.toLower)
    (hn2 : noHdrBefore pre2.length t2 = true) :
    sectionIsolate u = u ∧ sectionIsolate t1 = post1 ∧
      sectionIsolate t2 = post2 := by
  subst he1
  subst he2
  refine ⟨?_, ?_, ?_⟩
  · unfold sectionIsolate
    rw [findHeaderRest_none u hu1 hu2]
  · unfold sectionIsolate
    rw [findHeaderRest_wi hd1 post1 hm1 pre1 hn1]
  · unfold sectionIsolate
    rw [findHeaderRest_wds hd2 post2 hm2 pre2 hn2]

/-- C5 witness: a header-free text is returned unchanged; mixed-case
occurrences of either header are located case-insensitively and
everything before and including the header is cut off. -/
theorem section_isolation_check :
    (containsCI wiHdr "no headers here".data = false ∧
      containsCI wdsHdr "no headers here".data = false ∧
      "xx wElL InFoRmAtIoN tail one".data =
        "xx ".data ++ "wElL InFoRmAtIoN".data ++ " tail one".data ∧
      ("wElL InFoRmAtIoN".data.map Char.toLower =
        wiHdr.map Char.toLower) ∧
      noHdrBefore "xx ".data.length "xx wElL InFoRmAtIoN tail one".data =
        true ∧
      "yy Well Data Summary tail two".data =
        "yy ".data ++ "Well Data Summary".data ++ " tail two".data ∧
      ("Well Data Summary".data.map Char.toLower =
        wdsHdr.map Char.toLower) ∧
      noHdrBefore "yy ".data.length "yy Well Data Summary tail two".data =
        true) ∧
    sectionIsolate "no headers here".data = "no headers here".data ∧
    sectionIsolate "xx wElL InFoRmAtIoN tail one".data = " tail one".data ∧
    sectionIsolate "yy Well Data Summary tail two".data = " tail two".data :=
  ⟨by decide,
    section_isolation "no headers here".data
      "xx wElL InFoRmAtIoN tail one".data
      "yy Well Data Summary tail two".data
      "xx ".data "wElL InFoRmAtIoN".data " tail one".data
      "yy ".data "Well Data Summary".data " tail two".data
      (by decide) (by decide) (by decide) (by decide) (by decide)
      (by decide) (by decide) (by decide)⟩

theorem reSearch_litCI_none (L : List Char) (tail : RE) : ∀ s : List Char,
    containsCI L s = false →
    reSearch (RE.seq (RE.litCI L) tail) s = none := by
  intro s
  induction s with
  | nil =>
    intro h
    have hp : prefixCI L [] = false := by simpa [containsCI] using h
    simp [reSearch, tryMatch, mres, hp]
  | cons c cs ih =>
    intro h
    obtain ⟨h1, h2⟩ : prefixCI L (c :: cs) = false ∧ containsCI L cs = false := by
      simpa [containsCI, Bool.or_eq_false_iff] using h
    simp [reSearch, tryMatch, mres, h1, ih h2]

theorem match_and_set_none (L : List Char) (tail : RE) (s : List Char)
    (h : containsCI L s = false) :
    match_and_set (RE.seq (RE.litCI L) tail) s = none := by
  unfold match_and_set
  rw [reSearch_litCI_none L tail s h]

theorem scanStim_no_markers (d : StimData) : ∀ lines : List (List Char),
    (∀ l ∈ lines, containsSub "Date Stimulated".data (pyStrip l) = false ∧
      containsSub "Type Treatment".data (pyStrip l) = false ∧
      containsSub "Details".data (pyStrip l) = false) →
    scanStim d lines = d := by
  intro lines
  induction lines with
  | nil => intro _; rfl
  | cons l rest ih =>
    intro h
    obtain ⟨h1, h2, h3⟩ := h l (by simp)
    rw [scanStim_cons_skip d l rest h1 h2 h3]
    exact ih (fun x hx => h x (by simp [hx]))

/-- C7: extraction is total and fail-soft.  In this embedding both
parsers are total functions into fixed-shape records, so "never raises"
and "all ten / thirteen keys present" hold by construction; the
substantive residue is proved here: a text containing none of the known
labels, headers, or markers yields the two all-unset records — a valid
result, not an error. -/
theorem template_free_text_all_unset (t : String)
    (hw1 : containsCI wiHdr t.data = false)
    (hw2 : containsCI wdsHdr t.data = false)
    (hop : containsCI "Operator:".data t.data = false)
    (hapi : containsCI "API".data t.data = false)
    (hwn : containsCI "Well Name:".data t.data = false)
    (hen : containsCI "Enseco".data t.data = false)
    (hwt : containsCI "Well".data t.data = false)
    (hco : containsCI "County,".data t.data = false)
    (hsl : containsCI "Surface Location:".data t.data = false)
    (hla : containsCI "Latitude:".data t.data = false)
    (hlo : containsCI "Longitude:".data t.data = false)
    (hda : containsCI "Datum:".data t.data = false)
    (hst : ∀ l ∈ splitlines t.data,
      containsSub "Date Stimulated".data (pyStrip l) = false ∧
      containsSub "Type Treatment".data (pyStrip l) = false ∧
      containsSub "Details".data (pyStrip l) = false) :
    parse_well_info t = emptyWell ∧ parse_stimulation_data t = emptyStim := by
  constructor
  · have hsec : sectionIsolate t.data = t.data := by
      unfold sectionIsolate
      rw [findHeaderRest_none t.data hw1 hw2]
    simp only [parse_well_info, hsec, operatorPat, apiPat, wellNamePat,
      ensecoPat, jobTypePat, countyStatePat, shlPat, latitudePat,
      longitudePat, datumPat]
    rw [match_and_set_none _ _ _ hop, match_and_set_none _ _ _ hapi,
      match_and_set_none _ _ _ hwn, match_and_set_none _ _ _ hen,
      match_and_set_none _ _ _ hwt, match_and_set_none _ _ _ hco,
      match_and_set_none _ _ _ hsl, match_and_set_none _ _ _ hla,
      match_and_set_none _ _ _ hlo, match_and_set_none _ _ _ hda]
    rfl
  · unfold parse_stimulation_data
    exact scanStim_no_markers emptyStim _ hst

/-- C7 witness: a text matching no known template. -/
theorem template_free_text_all_unset_check :
    (containsCI wiHdr "nothing to see\nmove on 123".data = false ∧
      containsCI wdsHdr "nothing to see\nmove on 123".data = false ∧
      containsCI "Operator:".data "nothing to see\nmove on 123".data = false ∧
      containsCI "API".data "nothing to see\nmove on 123".data = false ∧
      containsCI "Well Name:".data "nothing to see\nmove on 123".data = false ∧
      containsCI "Enseco".data "nothing to see\nmove on 123".data = false ∧
      containsCI "Well".data "nothing to see\nmove on 123".data = false ∧
      containsCI "County,".data "nothing to see\nmove on 123".data = false ∧
      containsCI "Surface Location:".data "nothing to see\nmove on 123".data =
        false ∧
      containsCI "Latitude:".data "nothing to see\nmove on 123".data = false ∧
      containsCI "Longitude:".data "nothing to see\nmove on 123".data = false ∧
      containsCI "Datum:".data "nothing to see\nmove on 123".data = false ∧
      (∀ l ∈ splitlines "nothing to see\nmove on 123".data,
        containsSub "Date Stimulated".data (pyStrip l) = false ∧
        containsSub "Type Treatment".data (pyStrip l) = false ∧
        containsSub "Details".data (pyStrip l) = false)) ∧
    parse_well_info "nothing to see\nmove on 123" = emptyWell ∧
    parse_stimulation_data "nothing to see\nmove on 123" = emptyStim :=
  ⟨by decide,
    template_free_text_all_unset "nothing to see\nmove on 123"
      (by decide) (by decide) (by decide) (by decide) (by decide) (by decide)
      (by decide) (by decide) (by decide) (by decide) (by decide) (by decide)
      (by decide)⟩

theorem mres_seq (a b : RE) (s : List Char) (cp : Caps) :
    mres (RE.seq a b) s cp = (mres a s cp).flatMap (fun r => mres b r.2 r.1) := by
  cases s <;> rfl

theorem mres_eps (s : List Char) (cp : Caps) :
    mres RE.eps s cp = [(cp, s)] := by
  cases s <;> rfl

theorem mres_group_eq (i : Nat) (a : RE) (s : List Char) (cp : Caps) :
    mres (RE.group i a) s cp =
      (mres a s cp).map
        (fun r => (capSet r.1 i (s.take (s.length - r.2.length)), r.2)) := by
  cases s <;> rfl

theorem mres_starL_eq (a : RE) (s : List Char) (cp : Caps) :
    mres (RE.starL a) s cp =
      starIterL (fun s' cp' => mres a s' cp') (s.length + 1) s cp := by
  cases s <;> rfl

theorem mres_starG_eq (a : RE) (s : List Char) (cp : Caps) :
    mres (RE.starG a) s cp =
      starIterG (fun s' cp' => mres a s' cp') (s.length + 1) s cp := by
  cases s <;> rfl

theorem mres_litCI_eq (l s : List Char) (cp : Caps) :
    mres (RE.litCI l) s cp =
      if prefixCI l s then [(cp, s.drop l.length)] else [] := by
  cases s <;> rfl

theorem prefixCI_append_self (p r : List Char) : prefixCI p (p ++ r) = true := by
  induction p with
  | nil => rfl
  | cons a as ih => simp [prefixCI, ih]

theorem mres_litCI_self (L rest : List Char) (cp : Caps) :
    mres (RE.litCI L) (L ++ rest) cp = [(cp, rest)] := by
  rw [mres_litCI_eq, if_pos (prefixCI_append_self L rest), List.drop_left]

theorem mres_spC_nil (cp : Caps) : mres spC [] cp = [] := rfl

theorem mres_spC_cons_false (c : Char) (s : List Char) (cp : Caps)
    (h : pyIsSpace c = false) : mres spC (c :: s) cp = [] := by
  simp [mres, spC, h]

theorem starIterG_stop (step : List Char → Caps → List (Caps × List Char))
    (f : Nat) (s : List Char) (cp : Caps) (h : step s cp = []) :
    starIterG step f s cp = [(cp, s)] := by
  cases f <;> simp [starIterG, h]

theorem mres_starG_spC_stopped (s : List Char) (cp : Caps)
    (hstep : mres spC s cp = []) :
    mres (RE.starG spC) s cp = [(cp, s)] := by
  rw [mres_starG_eq]
  exact starIterG_stop _ _ s cp hstep

theorem starIterG_succ (step : List Char → Caps → List (Caps × List Char))
    (f : Nat) (s : List Char) (cp : Caps) :
    starIterG step (f + 1) s cp =
      ((step s cp).flatMap (fun r => starIterG step f r.2 r.1)) ++ [(cp, s)] :=
  rfl

theorem mres_starG_spC_one (v : List Char) (cp : Caps)
    (hstep : mres spC v cp = []) :
    mres (RE.starG spC) (' ' :: v) cp = [(cp, v), (cp, ' ' :: v)] := by
  have h1 : mres spC (' ' :: v) cp = [(cp, v)] := by
    simp [mres, spC, show pyIsSpace ' ' = true from by decide]
  rw [mres_starG_eq, starIterG_succ]
  simp only [h1, List.flatMap_cons, List.flatMap_nil]
  rw [starIterG_stop (fun s' cp' => mres spC s' cp') ((' ' :: v).length) v cp
    hstep]
  simp

theorem starIterL_nNL_sufList (cp : Caps) : ∀ (s : List Char) (f : Nat),
    (∀ c ∈ s, (c == '\n') = false) → s.length < f →
    starIterL (fun s' cp' => mres nNL s' cp') f s cp = sufList cp s := by
  intro s
  induction s with
  | nil =>
    intro f _ hf
    obtain ⟨f', rfl⟩ : ∃ f', f = f' + 1 := ⟨f - 1, by omega⟩
    simp [starIterL, mres, nNL, sufList]
  | cons c cs ih =>
    intro f h hf
    obtain ⟨f', rfl⟩ : ∃ f', f = f' + 1 := ⟨f - 1, by omega⟩
    have hc : (c == '\n') = false := h c (by simp)
    have hm : mres nNL (c :: cs) cp = [(cp, cs)] := by
      simp [mres, nNL, hc]
    have hf' : cs.length < f' := by
      simp only [List.length_cons] at hf
      omega
    simp [starIterL, hm, sufList,
      ih f' (fun d hd => h d (by simp [hd])) hf']

theorem mres_starL_nNL (s : List Char) (cp : Caps)
    (h : ∀ c ∈ s, (c == '\n') = false) :
    mres (RE.starL nNL) s cp = sufList cp s := by
  rw [mres_starL_eq]
  exact starIterL_nNL_sufList cp s (s.length + 1) h (by omega)

theorem mres_K2_fail (u : List Char)
    (h : u = [] ∨ ∃ c s', u = c :: s' ∧ pyIsSpace c = false) : ∀ cp : Caps,
    mres (RE.seq sPlus (RE.seq (RE.litCI "API".data) RE.eps)) u cp = [] := by
  intro cp
  have hstep : mres spC u cp = [] := by
    rcases h with rfl | ⟨c, s', rfl, hc⟩
    · rfl
    · exact mres_spC_cons_false c s' cp hc
  rw [mres_seq]
  have hplus : mres sPlus u cp = [] := by
    rw [show sPlus = RE.seq spC (RE.starG spC) from rfl, mres_seq, hstep]
    rfl
  rw [hplus]
  rfl

theorem mres_K2_succeed : ∀ cp : Caps,
    mres (RE.seq sPlus (RE.seq (RE.litCI "API".data) RE.eps))
      (' ' :: "API".data) cp = [(cp, [])] := by
  intro cp
  have h1 : mres spC (' ' :: "API".data) cp = [(cp, "API".data)] := by
    simp [mres, spC, show pyIsSpace ' ' = true from by decide]
  have h2 : mres (RE.starG spC) "API".data cp = [(cp, "API".data)] :=
    mres_starG_spC_stopped _ cp (mres_spC_cons_false 'A' _ cp (by decide))
  have h3 : mres (RE.litCI "API".data) "API".data cp = [(cp, [])] := by
    have := mres_litCI_self "API".data [] cp
    simpa using this
  rw [mres_seq, show sPlus = RE.seq spC (RE.starG spC) from rfl, mres_seq, h1]
  simp [h2, h3, mres_seq, mres_eps]

theorem chain_K2 (wrapf : Caps × List Char → Caps) : ∀ ph : List Char,
    (∀ c ∈ ph, pyIsSpace c = false) → ∀ cp : Caps,
    ((sufList cp (ph ++ ' ' :: "API".data)).map
        (fun r => (wrapf r, r.2))).flatMap
        (fun r =>
          mres (RE.seq sPlus (RE.seq (RE.litCI "API".data) RE.eps)) r.2 r.1)
      = [(wrapf (cp, ' ' :: "API".data), [])] := by
  intro ph
  induction ph with
  | nil =>
    intro _ cp
    simp only [List.nil_append, sufList, List.map_cons, List.map_nil,
      List.flatMap_cons, List.flatMap_nil]
    rw [mres_K2_succeed,
      mres_K2_fail "API".data (Or.inr ⟨'A', "PI".data, rfl, by decide⟩),
      mres_K2_fail "PI".data (Or.inr ⟨'P', "I".data, rfl, by decide⟩),
      mres_K2_fail "I".data (Or.inr ⟨'I', [], rfl, by decide⟩),
      mres_K2_fail [] (Or.inl rfl)]
    simp
  | cons c ph' ih =>
    intro h cp
    have hc : pyIsSpace c = false := h c (by simp)
    rw [List.cons_append]
    rw [show sufList cp (c :: (ph' ++ ' ' :: "API".data)) =
      (cp, c :: (ph' ++ ' ' :: "API".data)) ::
        sufList cp (ph' ++ ' ' :: "API".data) from rfl]
    rw [List.map_cons, List.flatMap_cons]
    rw [mres_K2_fail (c :: (ph' ++ ' ' :: "API".data))
      (Or.inr ⟨c, ph' ++ ' ' :: "API".data, rfl, hc⟩)
      (wrapf (cp, c :: (ph' ++ ' ' :: "API".data)))]
    rw [List.nil_append]
    exact ih (fun d hd => h d (by simp [hd])) cp

theorem reSearch_cons (r : RE) (c : Char) (cs : List Char) :
    reSearch r (c :: cs) =
      match tryMatch r (c :: cs) with
      | some pr => some pr.1
      | none => reSearch r cs := rfl

theorem operator_field_match (p0 : Char) (ptail : List Char)
    (hp0 : pyIsSpace p0 = false)
    (h1 : ∀ c ∈ ptail, pyIsSpace c = false) :
    reSearch operatorPat
        ("Operator:".data ++ ' ' :: p0 :: (ptail ++ ' ' :: "API".data)) =
      some (capSet cap0 1 (p0 :: ptail)) := by
  have hop : operatorPat = RE.seq (RE.litCI "Operator:".data)
      (RE.seq (RE.starG spC)
        (RE.seq (RE.group 1 (RE.seq nNL (RE.starL nNL)))
          (RE.seq sPlus (RE.seq (RE.litCI "API".data) RE.eps)))) := rfl
  have hnlp : ∀ c : Char, pyIsSpace c = false → (c == '\n') = false := by
    intro c hc
    have : c ≠ '\n' := by
      intro he
      rw [he] at hc
      exact absurd hc (by decide)
    simpa using this
  have hnl : ∀ c ∈ ptail ++ ' ' :: "API".data, (c == '\n') = false := by
    intro c hcmem
    rcases List.mem_append.mp hcmem with hmem | hmem
    · exact hnlp c (h1 c hmem)
    · rcases List.mem_cons.mp hmem with rfl | hmem2
      · decide
      · have hm3 : c ∈ ['A', 'P', 'I'] := hmem2
        fin_cases hm3 <;> decide
  have c1 : mres (RE.litCI "Operator:".data)
      ("Operator:".data ++ ' ' :: p0 :: (ptail ++ ' ' :: "API".data)) cap0 =
      [(cap0, ' ' :: p0 :: (ptail ++ ' ' :: "API".data))] :=
    mres_litCI_self _ _ _
  have c2 : mres (RE.starG spC)
      (' ' :: p0 :: (ptail ++ ' ' :: "API".data)) cap0 =
      [(cap0, p0 :: (ptail ++ ' ' :: "API".data)),
       (cap0, ' ' :: p0 :: (ptail ++ ' ' :: "API".data))] :=
    mres_starG_spC_one _ cap0 (mres_spC_cons_false p0 _ cap0 hp0)
  have c3 : mres nNL (p0 :: (ptail ++ ' ' :: "API".data)) cap0 =
      [(cap0, ptail ++ ' ' :: "API".data)] := by
    simp [mres, nNL, hnlp p0 hp0]
  have c5 : mres (RE.seq nNL (RE.starL nNL))
      (p0 :: (ptail ++ ' ' :: "API".data)) cap0 =
      sufList cap0 (ptail ++ ' ' :: "API".data) := by
    rw [mres_seq, c3, List.flatMap_cons, List.flatMap_nil,
      mres_starL_nNL _ cap0 hnl, List.append_nil]
  have c6 : mres (RE.group 1 (RE.seq nNL (RE.starL nNL)))
      (p0 :: (ptail ++ ' ' :: "API".data)) cap0 =
      (sufList cap0 (ptail ++ ' ' :: "API".data)).map
        (fun r => (capSet r.1 1
          ((p0 :: (ptail ++ ' ' :: "API".data)).take
            ((p0 :: (ptail ++ ' ' :: "API".data)).length - r.2.length)),
          r.2)) := by
    rw [mres_group_eq, c5]
  have hcap : (p0 :: (ptail ++ ' ' :: "API".data)).take
      ((p0 :: (ptail ++ ' ' :: "API".data)).length -
        (' ' :: "API".data).length) = p0 :: ptail := by
    have hw : p0 :: (ptail ++ ' ' :: "API".data) =
        (p0 :: ptail) ++ ' ' :: "API".data := by simp
    rw [hw, List.length_append, Nat.add_sub_cancel]
    exact List.take_left _ _
  have c7 : mres (RE.seq (RE.group 1 (RE.seq nNL (RE.starL nNL)))
      (RE.seq sPlus (RE.seq (RE.litCI "API".data) RE.eps)))
      (p0 :: (ptail ++ ' ' :: "API".data)) cap0 =
      [(capSet cap0 1 (p0 :: ptail), [])] := by
    rw [mres_seq, c6]
    have := chain_K2
      (fun r => capSet r.1 1
        ((p0 :: (ptail ++ ' ' :: "API".data)).take
          ((p0 :: (ptail ++ ' ' :: "API".data)).length - r.2.length)))
      ptail h1 cap0
    rw [this, hcap]
  have c8 : mres operatorPat
      ("Operator:".data ++ ' ' :: p0 :: (ptail ++ ' ' :: "API".data)) cap0 =
      [(capSet cap0 1 (p0 :: ptail), [])] ++
        mres (RE.seq (RE.group 1 (RE.seq nNL (RE.starL nNL)))
          (RE.seq sPlus (RE.seq (RE.litCI "API".data) RE.eps)))
          (' ' :: p0 :: (ptail ++ ' ' :: "API".data)) cap0 := by
    rw [hop, mres_seq, c1, List.flatMap_cons, List.flatMap_nil,
      List.append_nil, mres_seq, c2, List.flatMap_cons, List.flatMap_cons,
      List.flatMap_nil, List.append_nil, c7]
  have c9 : tryMatch operatorPat
      ("Operator:".data ++ ' ' :: p0 :: (ptail ++ ' ' :: "API".data)) =
      some (capSet cap0 1 (p0 :: ptail), []) := by
    unfold tryMatch
    rw [c8]
    rfl
  have hT : "Operator:".data ++ ' ' :: p0 :: (ptail ++ ' ' :: "API".data) =
      'O' :: ("perator:".data ++ ' ' :: p0 :: (ptail ++ ' ' :: "API".data)) := by
    rw [show "Operator:".data = 'O' :: "perator:".data from rfl,
      List.cons_append]
  rw [hT] at c9 ⊢
  rw [reSearch_cons, c9]

/-- C9 (amended): the operator capture requires the pattern shape
`Operator:` + whitespace + non-newline phrase + at least one whitespace
+ `API`.  When the section text has this shape — here: a label, one
space, a whitespace-free phrase, one space, `API` — the operator field
is the phrase between the label and the whitespace-preceded API token
(so the capture does not extend to end of line); when the substrings
occur without this shape (no whitespace before `API`, or the phrase
interrupted by a newline) the field stays unset. -/
theorem operator_capture_amended (p0 : Char) (ptail : List Char)
    (hp0 : pyIsSpace p0 = false)
    (h1 : ∀ c ∈ ptail, pyIsSpace c = false)
    (h2 : containsCI wiHdr
      ("Operator: ".data ++ ((p0 :: ptail) ++ " API".data)) = false)
    (h3 : containsCI wdsHdr
      ("Operator: ".data ++ ((p0 :: ptail) ++ " API".data)) = false) :
    (parse_well_info
        ⟨"Operator: ".data ++ ((p0 :: ptail) ++ " API".data)⟩).operator =
      some ⟨p0 :: ptail⟩ := by
  have hsec : sectionIsolate
      ("Operator: ".data ++ ((p0 :: ptail) ++ " API".data)) =
      "Operator: ".data ++ ((p0 :: ptail) ++ " API".data) := by
    unfold sectionIsolate
    rw [findHeaderRest_none _ h2 h3]
  have e1 : "Operator: ".data ++ ((p0 :: ptail) ++ " API".data) =
      "Operator:".data ++ ' ' :: p0 :: (ptail ++ ' ' :: "API".data) := by
    rw [show "Operator: ".data = "Operator:".data ++ [' '] from by decide]
    simp
  simp only [parse_well_info]
  show match_and_set operatorPat
      (sectionIsolate
        ("Operator: ".data ++ ((p0 :: ptail) ++ " API".data))) = _
  rw [hsec, e1]
  unfold match_and_set
  rw [operator_field_match p0 ptail hp0 h1]
  have hstrip : pyStrip (p0 :: ptail) = p0 :: ptail :=
    pyStrip_eq_self _ (by
      intro c hc
      rcases List.mem_cons.mp hc with rfl | hc2
      · exact hp0
      · exact h1 c hc2)
  simp [capSet, hstrip]

/-- C9 counterexample: this section text contains "Operator:" followed
later by "API", the trimmed text between them being "Foo", yet the
operator field stays unset, because the pattern demands whitespace
before the API token. -/
theorem operator_capture_counterexample :
    containsSub "Operator:".data "Operator: FooAPI".data = true ∧
    containsSub "API".data "Operator: FooAPI".data = true ∧
    (parse_well_info "Operator: FooAPI").operator = none := by
  refine ⟨by decide, by decide, by decide⟩

/-- C9 witness for the amended claim: a concrete phrase. -/
theorem operator_capture_amended_check :
    (pyIsSpace 'H' = false ∧
      (∀ c ∈ "ess_Corp".data, pyIsSpace c = false) ∧
      containsCI wiHdr
        ("Operator: ".data ++ (('H' :: "ess_Corp".data) ++ " API".data)) =
        false ∧
      containsCI wdsHdr
        ("Operator: ".data ++ (('H' :: "ess_Corp".data) ++ " API".data)) =
        false) ∧
    (parse_well_info
        ⟨"Operator: ".data ++ (('H' :: "ess_Corp".data) ++ " API".data)⟩).operator =
      some "Hess_Corp" :=
  ⟨by decide,
    operator_capture_amended 'H' "ess_Corp".data (by decide) (by decide)
      (by decide) (by decide)⟩

end PdfParse
